import Mathlib

/-!
Verification of the Offliner download-orchestration core.

This file gives a shallow embedding, in Lean 4, of the parts of the
Offliner repository (src/logic.py, src/routes.py, src/config.py) that the
specification's claims talk about, and proves or refutes each claim
against that embedding.

Conventions used throughout:
* Python dicts holding the progress record become a Lean structure
  (`ProgressRecord`); keyword-argument merges become an `UpdateFields`
  record of `Option` fields.
* The Redis store, viewed from a single `request_id`, is an
  `Option (ProgressRecord × Nat)` — the record plus its remaining TTL in
  seconds, or `none` when the key is absent.
* Python floats are modelled as exact rationals `ℚ`; `int(x)` on a
  non-negative float is `Rat.floor`, and in general truncation toward
  zero (`ratTrunc` below).
* Python strings are Lean `String`s; where character-level work is
  needed (the filename sanitizer) they are `List Char`.
* External collaborators (yt-dlp invocations, the fuzzy-ratio library,
  JSON parsing, the filesystem) are abstracted as explicit function or
  data parameters; everything branching on their results is translated
  from the source.
-/

namespace Offliner

/-! ## Progress record and store (src/logic.py, `DownloadProgressStore`) -/

/-- The JSON progress record stored under `progress:{request_id}`.
Field names and initial values follow `DownloadProgressStore.create`
(src/logic.py lines 155-175). -/
structure ProgressRecord where
  percent : ℤ
  status : String
  detail : String
  speed : String
  eta : String
  current_file : String
  completed_items : ℕ
  total_items : ℕ
  phase : String
  complete : Bool
  error : Option String
  file_path : Option String
  temp_dir : Option String
  cancel_requested : Bool
deriving DecidableEq

/-- The fresh record written by `DownloadProgressStore.create` (src/logic.py
lines 158-174). -/
def initialRecord (total_items : ℕ) : ProgressRecord :=
  { percent := 0
    status := "Preparing..."
    detail := ""
    speed := ""
    eta := ""
    current_file := ""
    completed_items := 0
    total_items := total_items
    phase := "preparing"
    complete := false
    error := none
    file_path := none
    temp_dir := none
    cancel_requested := false }

/-- Keyword arguments passed to `DownloadProgressStore.update`.  A `some`
field is merged into the record, a `none` field is left untouched
(`data.update(kwargs)` in src/logic.py line 204).  No call site in the
repository ever passes `cancel_requested` to `update` (the only writes to
that key are `create` and `request_cancel`), so the kwargs record has no
such field. -/
structure UpdateFields where
  percent : Option ℤ := none
  status : Option String := none
  detail : Option String := none
  speed : Option String := none
  eta : Option String := none
  current_file : Option String := none
  completed_items : Option ℕ := none
  total_items : Option ℕ := none
  phase : Option String := none
  complete : Option Bool := none
  error : Option (Option String) := none
  file_path : Option (Option String) := none
  temp_dir : Option (Option String) := none
deriving DecidableEq

/-- `data.update(kwargs)` — merge the given fields into a record. -/
def applyUpdate (r : ProgressRecord) (u : UpdateFields) : ProgressRecord :=
  { percent := u.percent.getD r.percent
    status := u.status.getD r.status
    detail := u.detail.getD r.detail
    speed := u.speed.getD r.speed
    eta := u.eta.getD r.eta
    current_file := u.current_file.getD r.current_file
    completed_items := u.completed_items.getD r.completed_items
    total_items := u.total_items.getD r.total_items
    phase := u.phase.getD r.phase
    complete := u.complete.getD r.complete
    error := u.error.getD r.error
    file_path := u.file_path.getD r.file_path
    temp_dir := u.temp_dir.getD r.temp_dir
    cancel_requested := r.cancel_requested }

/-- The Redis state for one `request_id`: the stored record together with
its remaining TTL in seconds, or `none` when the key is absent. -/
abbrev StoreState := Option (ProgressRecord × ℕ)

/-- TTL used by `create` (`_PROGRESS_TTL` in src/logic.py line 105). -/
def PROGRESS_TTL : ℕ := 3600

namespace DownloadProgressStore

/-- `DownloadProgressStore.create` (src/logic.py lines 155-175): a plain
Redis `SET ... EX 3600`.  There is no existence check and no `NX` flag, so
an existing record for the same id is overwritten unconditionally. -/
def create (_s : StoreState) (total_items : ℕ) : StoreState :=
  some (initialRecord total_items, PROGRESS_TTL)

/-- `DownloadProgressStore.request_cancel` (src/logic.py lines 177-186):
no-op when the key is absent, otherwise sets `cancel_requested` and writes
back with `keepttl=True`. -/
def request_cancel (s : StoreState) : StoreState :=
  match s with
  | none => none
  | some (r, t) => some ({ r with cancel_requested := true }, t)

/-- `DownloadProgressStore.is_cancelled` (src/logic.py lines 188-195). -/
def is_cancelled (s : StoreState) : Bool :=
  match s with
  | none => false
  | some (r, _) => r.cancel_requested

/-- `DownloadProgressStore.update` (src/logic.py lines 197-205): no-op
when the key is absent, otherwise merge the kwargs and write back with
`keepttl=True`. -/
def update (s : StoreState) (u : UpdateFields) : StoreState :=
  match s with
  | none => none
  | some (r, t) => some (applyUpdate r u, t)

/-- The synthetic record returned by `DownloadProgressStore.get` when the
key is absent (src/logic.py lines 211-220).  The real dict carries only
`percent/status/detail/speed/eta/complete/error`; the remaining fields are
modelled by the defaults that the repository's readers substitute for the
missing keys (`completed_items → 0`, `total_items → 1`, empty strings and
`none`/`false` elsewhere). -/
def unknownRecord : ProgressRecord :=
  { percent := 0
    status := "Unknown"
    detail := ""
    speed := ""
    eta := ""
    current_file := ""
    completed_items := 0
    total_items := 1
    phase := ""
    complete := false
    error := some "Session not found"
    file_path := none
    temp_dir := none
    cancel_requested := false }

/-- `DownloadProgressStore.get` (src/logic.py lines 207-221). -/
def get (s : StoreState) : ProgressRecord :=
  match s with
  | none => unknownRecord
  | some (r, _) => r

/-- `DownloadProgressStore.remove` (src/logic.py lines 223-226). -/
def remove (_s : StoreState) : StoreState := none

end DownloadProgressStore

/-! ## Store operations as a transition system (for the monotonicity claim) -/

/-- One mutating operation of `DownloadProgressStore` on a fixed
`request_id` (`get`/`is_cancelled` are read-only and irrelevant here). -/
inductive StoreOp where
  | create (total_items : ℕ)
  | update (u : UpdateFields)
  | request_cancel
  | remove
deriving DecidableEq

/-- Whether an operation is a `create`. -/
def StoreOp.isCreate : StoreOp → Bool
  | .create _ => true
  | _ => false

/-- Whether an operation is a `remove`. -/
def StoreOp.isRemove : StoreOp → Bool
  | .remove => true
  | _ => false

/-- Apply one store operation to the state for a fixed id. -/
def applyOp (s : StoreState) : StoreOp → StoreState
  | .create n => DownloadProgressStore.create s n
  | .update u => DownloadProgressStore.update s u
  | .request_cancel => DownloadProgressStore.request_cancel s
  | .remove => DownloadProgressStore.remove s

/-- Run a sequence of store operations. -/
def runOps (s : StoreState) (ops : List StoreOp) : StoreState :=
  ops.foldl applyOp s

/-! ## The RQ task body (src/logic.py, `execute_download_task`) -/

/-- Terminal-state publication of `execute_download_task` (src/logic.py
lines 2349-2392), as a transformer of the store state for `task_id`.

* `outcome` abstracts the delegated download call
  (`download_selective` / `download_with_progress`): `.ok rp` is a normal
  return of `result_path = rp` (Python `None` is `none`), `.error msg` is
  a raised exception with message `msg` — the body's `except` clause
  stores `str(exc)[:200]`.
* `existsOn` abstracts `os.path.exists`.
* `s` is the store state at publication time (the download phase writes
  intermediate updates through the same `update` API, which never touches
  the terminal fields set here).

Python truthiness of `result_path and os.path.exists(result_path)` makes
the empty string fall through to the failure branch. -/
def execute_download_task (s : StoreState) (outcome : Except String (Option String))
    (existsOn : String → Bool) : StoreState :=
  match outcome with
  | .error msg =>
      DownloadProgressStore.update s
        { error := some (some (msg.take 200)), complete := some true,
          percent := some 100, status := some "Error", phase := some "error" }
  | .ok rp =>
      if (match rp with | some p => (p != "") && existsOn p | none => false) then
        DownloadProgressStore.update s
          { file_path := some rp, complete := some true, percent := some 100,
            status := some "Done!", detail := some "Ready to download",
            phase := some "done", speed := some "", eta := some "" }
      else if DownloadProgressStore.is_cancelled s then
        DownloadProgressStore.update s
          { error := some (some "Cancelled by client disconnect"),
            complete := some true, percent := some 100,
            status := some "Cancelled",
            detail := some "Cancelled by client disconnect",
            phase := some "cancelled" }
      else
        DownloadProgressStore.update s
          { error := some (some "Could not download the file."),
            complete := some true, percent := some 100,
            status := some "Error", phase := some "error" }

/-! ## Quota tracker (src/routes.py, `DownloadTracker.check_limits`) -/

/-- Result of a quota check: the `allowed` dict, or the `allowed=False`
dict carrying the `reason` tag (the numeric reporting fields of the
Python dict are omitted; they do not affect control flow). -/
inductive LimitCheck where
  | allowed
  | denied (reason : String)
deriving DecidableEq

/-- The five configured caps (src/config.py lines 47-58; all are ints
read from the environment).  Duration caps are in minutes. -/
structure LimitsConfig where
  MAX_CONTENT_DURATION : ℕ := 60
  MAX_DOWNLOADS_PER_HOUR : ℕ := 10
  MAX_DOWNLOADS_PER_DAY : ℕ := 50
  MAX_DURATION_PER_HOUR : ℕ := 120
  MAX_DURATION_PER_DAY : ℕ := 600
deriving DecidableEq

/-- `DownloadTracker.check_limits` (src/routes.py lines 120-217), after
`_clean_old_entries`: `hourly` and `daily` are the per-entry duration
values (seconds) of the surviving window entries, `duration_seconds` the
candidate item's duration.  Comparisons are exactly the source's:
strict `>` for the three duration checks, `>=` for the two counts. -/
def check_limits (cfg : LimitsConfig) (hourly daily : List ℚ)
    (duration_seconds : ℚ) : LimitCheck :=
  let duration_minutes : ℚ := duration_seconds / 60
  if (cfg.MAX_CONTENT_DURATION : ℚ) < duration_minutes then
    .denied "content_duration_exceeded"
  else if cfg.MAX_DOWNLOADS_PER_HOUR ≤ hourly.length then
    .denied "hourly_downloads_exceeded"
  else if cfg.MAX_DOWNLOADS_PER_DAY ≤ daily.length then
    .denied "daily_downloads_exceeded"
  else if (cfg.MAX_DURATION_PER_HOUR : ℚ) < hourly.sum / 60 + duration_minutes then
    .denied "hourly_duration_exceeded"
  else if (cfg.MAX_DURATION_PER_DAY : ℚ) < daily.sum / 60 + duration_minutes then
    .denied "daily_duration_exceeded"
  else
    .allowed

/-! ## String helpers shared by the embedded functions

Python's `str.strip()` and the regex class `\s` both use
`Py_UNICODE_ISSPACE`; over the ASCII range (the range all the claims and
counterexamples below live in) that is code points 9-13, 28-31 and 32. -/

/-- Python whitespace test, over the ASCII range. -/
def isPySpace (c : Char) : Bool :=
  decide ((9 ≤ c.toNat ∧ c.toNat ≤ 13) ∨ (28 ≤ c.toNat ∧ c.toNat ≤ 31) ∨ c.toNat = 32)

/-- Python `str.strip()` on a character list: drop leading whitespace,
then drop trailing whitespace (`List.rdropWhile p = reverse ∘ dropWhile p
∘ reverse`). -/
def pstrip (l : List Char) : List Char :=
  (l.dropWhile isPySpace).rdropWhile isPySpace

/-- Python `str.strip()` on a string. -/
def stripStr (s : String) : String :=
  (pstrip s.toList).asString

/-- `re.sub(r"\.+$", "", name)` for a string with no trailing newline:
drop the trailing run of dots. -/
def dropTrailingDots (l : List Char) : List Char :=
  l.rdropWhile (fun c => c == '.')

/-- `re.sub(r"\s+", " ", name)`: replace every maximal whitespace run by
a single space.  Phrased pairwise — a whitespace character immediately
followed by another whitespace character is dropped, so each run
contributes only its last character, rewritten to `' '`. -/
def collapseWs : List Char → List Char
  | [] => []
  | [c] => if isPySpace c then [' '] else [c]
  | c :: d :: rest =>
    if isPySpace c && isPySpace d then collapseWs (d :: rest)
    else (if isPySpace c then ' ' else c) :: collapseWs (d :: rest)

/-- Does `hay` start with `needle`? -/
def startsWithSeq : List Char → List Char → Bool
  | [], _ => true
  | _ :: _, [] => false
  | a :: as, b :: bs => a == b && startsWithSeq as bs

/-- Does `hay` contain `needle` as a contiguous subsequence?  Models the
Python `in` test on strings. -/
def containsSeq (needle : List Char) : List Char → Bool
  | [] => needle.isEmpty
  | c :: rest => startsWithSeq needle (c :: rest) || containsSeq needle rest

/-! ## Filename sanitizer (src/logic.py, `OfflinerCore._sanitize_filename`) -/

/-- The characters removed by `re.sub(r'[<>:"/\\|?*]', "", name)`. -/
def isForbiddenChar (c : Char) : Bool :=
  ['<', '>', ':', '"', '/', '\\', '|', '?', '*'].contains c

/-- One concrete instance of the external
`unicodedata.normalize("NFKD", name).encode("ascii", "ignore").decode("ascii")`
call (`_sanitize_filename` below takes that call as a parameter): keep
exactly the code points below 128.  This is the behaviour of the Python
expression on every string containing no decomposable code point — in
particular on every ASCII string, since ASCII characters are NFKD-fixed
and survive the `ascii`/`ignore` encode.  The theorems below evaluate it
only on such strings; `nfkdAsciiFoldWide` covers a string with a
decomposable code point. -/
def nfkdAsciiFold (l : List Char) : List Char :=
  l.filter (fun c => c.toNat ≤ 127)

/-- A second concrete instance of the NFKD/ASCII fold: exact on strings
whose only decomposable code point is U+FF0F FULLWIDTH SOLIDUS, whose
compatibility decomposition is the ASCII `'/'` (all other kept code
points being NFKD-fixed, and those at 128 and above dropped by the
`ascii`/`ignore` encode). -/
def nfkdAsciiFoldWide (l : List Char) : List Char :=
  (l.map (fun c => if c.toNat = 65295 then '/' else c)).filter
    (fun c => c.toNat ≤ 127)

/-- Steps 1-5 of `OfflinerCore._sanitize_filename` (src/logic.py lines
473-493), the part before the ASCII fold:
1. `name = title.strip()`
2. `name = re.sub(r'[<>:"/\\|?*]', "", name)`
3. `name = re.sub(r"\.+$", "", name.strip())`
4. `name = re.sub(r"\s+", " ", name).strip()`
5. `if len(name) > 200: name = name[:200].strip()`
Step 6 — NFKD/ASCII fold, collapse whitespace and strip, keeping the
folded name only when non-empty — follows in `_sanitize_filename`.  The
`try/except` around step 6 is dead in the model (the Python expressions
inside it do not raise). -/
def sanitize_n5 (title : List Char) : List Char :=
  let name1 := pstrip title
  let name2 := name1.filter (fun c => !(isForbiddenChar c))
  let name3 := dropTrailingDots (pstrip name2)
  let name4 := pstrip (collapseWs name3)
  if 200 < name4.length then pstrip (name4.take 200) else name4

/-- Steps 1-6 together: the full `_sanitize_filename`.  The external
library call `unicodedata.normalize("NFKD", ·).encode("ascii",
"ignore").decode("ascii")` is the explicit parameter `nfkd_ascii` —
its real behaviour (per-character compatibility decomposition followed
by dropping the code points at 128 and above) is outside the
repository; `nfkdAsciiFold` and `nfkdAsciiFoldWide` above are instances
of it, each exact on the concrete inputs the theorems evaluate, and the
idempotence theorem assumes of it only what is true of the real call:
it maps ASCII strings to themselves. -/
def _sanitize_filename (nfkd_ascii : List Char → List Char)
    (title : List Char) : List Char :=
  let name5 := sanitize_n5 title
  let ascii_name := pstrip (collapseWs (nfkd_ascii name5))
  if !ascii_name.isEmpty then ascii_name else name5

/-! ## YouTube Music search (src/logic.py, `_search_youtube_music_impl`) -/

/-- One entry of the `ytmusic.search` response, keeping the fields the
selection loop reads: `r.get("videoId")`, `r.get("title", "")` and the
`name`s of `r.get("artists", [])`. -/
structure Candidate where
  videoId : Option String
  title : String
  artists : List String
deriving DecidableEq

/-- `f"{r_title} {r_artist}".strip()` with
`r_artist = r_artists[0].get("name", "") if r_artists else ""`
(src/logic.py lines 801-804). -/
def candidateCombined (r : Candidate) : String :=
  stripStr (r.title ++ " " ++ (r.artists.head?.getD ""))

/-- One iteration of the best-candidate scan of
`_search_youtube_music_impl` (src/logic.py lines 798-808): skip entries
without `videoId`; keep the strictly best score. -/
def bestStep (score : Candidate → ℚ) (acc : Option Candidate × ℚ)
    (r : Candidate) : Option Candidate × ℚ :=
  match r.videoId with
  | none => acc
  | some _ => if acc.2 < score r then (some r, score r) else acc

/-- The best-candidate scan of `_search_youtube_music_impl`
(src/logic.py lines 795-808): `best = None`, `best_score = 0.0`, then
one `bestStep` per result. -/
def bestMatchFold (score : Candidate → ℚ) (results : List Candidate) :
    Option Candidate × ℚ :=
  results.foldl (bestStep score) (none, 0)

/-- `OfflinerCore._search_youtube_music_impl` (src/logic.py lines
769-825), from the point where the search response `results` is in hand.
`scoreFn` abstracts `_match_score` (the rapidfuzz /
`difflib.SequenceMatcher` similarity ratio in `[0,1]`); it is applied to
`query_combined = f"{title} {artist or ''}".strip()` and the candidate's
combined string, exactly as in the source.  Returns the produced URL
together with the chosen candidate (the source returns the URL and the
candidate's title/first-artist fields). -/
def _search_youtube_music_impl (scoreFn : String → String → ℚ)
    (title : String) (artist : Option String) (results : List Candidate) :
    Option (String × Candidate) :=
  let query_combined := stripStr (title ++ " " ++ artist.getD "")
  if results.isEmpty then none
  else
    let best := bestMatchFold (fun r => scoreFn query_combined (candidateCombined r)) results
    match best.1 with
    | some b =>
      if (1 : ℚ) / 2 ≤ best.2 then
        match b.videoId with
        | some vid => some ("https://music.youtube.com/watch?v=" ++ vid, b)
        | none => none
      else none
    | none => none

/-! ## Transfer progress hook (src/logic.py, `_make_progress_hook`) -/

/-- The `status == "downloading"` branch of the hook created by
`OfflinerCore._make_progress_hook` (src/logic.py lines 1346-1383).
`downloaded`/`total` are `downloaded_bytes` and
`total_bytes`/`total_bytes_estimate`; `speed_str`/`eta_str` abstract the
humanized speed/ETA formatting; `filename` is the reported path's stem.
A requested cancellation raises
`DownloadError("Cancelled by client disconnect")`, modelled as `.error`.
`int(overall)` truncates toward zero; `overall ≥ 15 ≥ 0` always holds
here, so it is `Int.floor`. -/
def progress_hook_downloading (s : StoreState) (downloaded total : ℕ)
    (filename speed_str eta_str : String) : Except String StoreState :=
  if DownloadProgressStore.is_cancelled s then
    .error "Cancelled by client disconnect"
  else
    let store := DownloadProgressStore.get s
    let completed := store.completed_items
    let total_items := max store.total_items 1
    let item_pct : ℚ := if 0 < total then (downloaded : ℚ) / (total : ℚ) * 100 else 0
    let overall : ℚ := 15 + (((completed : ℚ) + item_pct / 100) / (total_items : ℚ)) * 75
    .ok (DownloadProgressStore.update s
      { percent := some (min ⌊overall⌋ 90),
        status := some "Downloading...",
        detail := some (filename.take 60),
        speed := some speed_str,
        eta := some eta_str,
        current_file := some filename,
        phase := some "downloading" })

/-! ## SponsorBlock postprocessors and the download retry
(src/logic.py, `_sponsorblock_postprocessors` / `_download_media`) -/

/-- One yt-dlp postprocessor dict, keeping its `key` and the category
list it carries (`categories` for the SponsorBlock entry,
`remove_sponsor_segments` for the ModifyChapters entry; entries that
carry no category list leave it empty).  The remaining constant payload
fields (`api`, `force_keyframes`, codec options, …) play no role in the
retry logic. -/
structure PostProcessor where
  key : String
  categories : List String := []
deriving DecidableEq

/-- Keys of `OfflinerCore.SPONSORBLOCK_CATEGORIES`
(src/logic.py lines 312-321). -/
def SPONSORBLOCK_CATEGORY_KEYS : List String :=
  ["sponsor", "intro", "outro", "selfpromo", "preview", "filler",
   "interaction", "music_offtopic"]

/-- `OfflinerCore._sponsorblock_postprocessors` (src/logic.py lines
543-571): empty unless enabled with a non-empty category selection,
otherwise the pair of a `SponsorBlock` chapter-fetch entry (over all
known categories) and a `ModifyChapters` entry carrying the selected
categories as `remove_sponsor_segments`. -/
def _sponsorblock_postprocessors (enabled : Bool) (categories : List String) :
    List PostProcessor :=
  if !enabled then []
  else if categories.isEmpty then []
  else
    [{ key := "SponsorBlock", categories := SPONSORBLOCK_CATEGORY_KEYS },
     { key := "ModifyChapters", categories := categories }]

/-- `"unexpected keyword argument 'action'"` as a character list. -/
def actionMarker : List Char :=
  ['u', 'n', 'e', 'x', 'p', 'e', 'c', 't', 'e', 'd', ' ',
   'k', 'e', 'y', 'w', 'o', 'r', 'd', ' ',
   'a', 'r', 'g', 'u', 'm', 'e', 'n', 't', ' ',
   '\'', 'a', 'c', 't', 'i', 'o', 'n', '\'']

/-- The error recognition of `_download_media`'s retry (src/logic.py
lines 1678-1683): `"SponsorBlock" in msg or "SponsorBlockPP" in msg or
"unexpected keyword argument 'action'" in msg` (the second test is
subsumed by the first, as in the source). -/
def isSponsorblockRetryError (msg : String) : Bool :=
  containsSeq "SponsorBlock".toList msg.toList ||
  containsSeq "SponsorBlockPP".toList msg.toList ||
  containsSeq actionMarker msg.toList

/-- `filtered_pp` of `_download_media` (src/logic.py lines 1694-1698):
drop the entries whose `key` is `"SponsorBlock"`. -/
def filtered_pp (postprocessors : List PostProcessor) : List PostProcessor :=
  postprocessors.filter (fun p => p.key != "SponsorBlock")

/-- The download invocation with its retry (src/logic.py lines
1673-1709).  `attempt pps` abstracts
`yt_dlp.YoutubeDL({**opts, "postprocessors": pps}).extract_info(url)`:
`.ok` on success, `.error msg` on a raised error with message `msg`
(the same options dict is reused, so the retry differs only in the
postprocessor chain).  On success the returned number counts the
invocations performed (1 = first try, 2 = after the single retry). -/
def download_with_sponsorblock_retry
    (attempt : List PostProcessor → Except String Unit)
    (postprocessors : List PostProcessor) : Except String ℕ :=
  match attempt postprocessors with
  | .ok _ => .ok 1
  | .error msg =>
    if isSponsorblockRetryError msg then
      match attempt (filtered_pp postprocessors) with
      | .ok _ => .ok 2
      | .error m2 => .error m2
    else .error msg

/-! ## The download route (src/routes.py, `descargar`) -/

/-- Outcome of the `/descargar` handler: a 400 response, a 429 response
with the quota reason, or acceptance — which in the source creates the
progress record (`ProgressStore.create`), prepares the session directory
and enqueues the RQ job before answering `{request_id}`.  Interpolated
numbers in the 400 messages are omitted. -/
inductive DescargarResponse where
  | badRequest (msg : String)
  | tooManyRequests (reason : String)
  | accepted
deriving DecidableEq

/-- The `descargar` route handler (src/routes.py lines 591-729), its
control flow up to enqueueing.

* `inputURL`, `is_playlist_mode_field`, `selected_urls_json` are the raw
  form fields (`request.form.get` with defaults `""`, `"false"`, `""`).
* `parsed_selected` abstracts `json.loads(selected_urls_json)`: `.error`
  is a `JSONDecodeError`, `.ok` the parsed list, each element carrying
  `url_data.get("duracion_segundos", 0)` when the element is a dict
  (`some d`) and `none` when it is not a dict (contributing no duration).
* `probe_duration` abstracts the single-item branch's
  `obtener_info_media` probe (`0` when the probe fails or returns no
  duration).
* `hourly`/`daily`/`cfg`/`max_playlist_items` feed `check_limits`
  exactly as `download_tracker.check_limits(user_ip, total_duration)`
  does. -/
def descargar (cfg : LimitsConfig) (max_playlist_items : ℕ)
    (hourly daily : List ℚ)
    (inputURL is_playlist_mode_field selected_urls_json : String)
    (parsed_selected : Except Unit (List (Option ℚ)))
    (probe_duration : ℚ) : DescargarResponse :=
  let input_url := stripStr inputURL
  let is_playlist_mode := is_playlist_mode_field == "true"
  if input_url == "" && !is_playlist_mode then
    .badRequest "Please enter a URL or song name."
  else
    let sel : Except DescargarResponse ℚ :=
      if is_playlist_mode && selected_urls_json != "" then
        match parsed_selected with
        | .error _ => .error (.badRequest "Error in playlist data.")
        | .ok selected_urls =>
          if selected_urls.isEmpty then
            .error (.badRequest "Select at least one item from the playlist.")
          else if max_playlist_items < selected_urls.length then
            .error (.badRequest "Playlist exceeds maximum allowed items.")
          else
            .ok ((selected_urls.map (fun d => d.getD 0)).sum)
      else
        .ok probe_duration
    match sel with
    | .error resp => resp
    | .ok total_duration =>
      match check_limits cfg hourly daily total_duration with
      | .denied reason => .tooManyRequests reason
      | .allowed => .accepted

/-! ## Item-progress percentage (src/logic.py, `_DownloadResult`) -/

/-- Python `int()` on a rational: truncation toward zero. -/
def ratTrunc (q : ℚ) : ℤ :=
  if q < 0 then -⌊-q⌋ else ⌊q⌋

/-- `_DownloadResult.get_progress_pct` (src/logic.py lines 290-294):
`15` when `total_items <= 0`, else
`15 + int((completed_items / total_items) * 70)`. -/
def get_progress_pct (total_items completed_items : ℤ) : ℤ :=
  if total_items ≤ 0 then 15
  else 15 + ratTrunc ((completed_items : ℚ) / (total_items : ℚ) * 70)

/-! ## Concrete instances used by the witness theorems -/

/-- A filesystem on which every path exists. -/
def onDiskAlways : String → Bool := fun _ => true

/-- A similarity function that scores every pair at exactly the
threshold `0.5`. -/
def scoreHalf : String → String → ℚ := fun _ _ => 1 / 2

/-- A single concrete search candidate. -/
def candA : Candidate :=
  { videoId := some "abc", title := "T", artists := ["A"] }

/-- A download attempt that fails (with a recognized SponsorBlock error)
exactly while a `SponsorBlock` postprocessor is in the chain. -/
def attemptNoSB : List PostProcessor → Except String Unit := fun pps =>
  if pps.any (fun p => p.key == "SponsorBlock") then
    .error "Postprocessing: SponsorBlock failed"
  else .ok ()

/-! # Theorems -/

/-! ## C2 — `create` on an existing id -/

/-- C2, counterexample.  The claim says `create` fails when a record for
the same `request_id` already exists within its TTL and does not replace
it.  In the code `create` is a plain Redis `SET` with `ex=3600` and no
existence check: starting from a live record (percent 50, 100 s of TTL
left), `create` replaces it with the fresh initial record and resets the
TTL. -/
theorem create_existing_id_counterexample :
    DownloadProgressStore.create (some ({ initialRecord 1 with percent := 50 }, 100)) 1
        = some (initialRecord 1, 3600) ∧
    DownloadProgressStore.create (some ({ initialRecord 1 with percent := 50 }, 100)) 1
        ≠ some ({ initialRecord 1 with percent := 50 }, 100) := by
  refine ⟨rfl, ?_⟩
  intro h
  have h50 := congrArg (fun s => (DownloadProgressStore.get s).percent) h
  simp [DownloadProgressStore.get, DownloadProgressStore.create, initialRecord] at h50

/-- C2, amended.  `create(request_id, total_items)` never fails on an
existing id: it unconditionally stores the initial record (overwriting
any existing one) with a TTL of 3600 seconds. -/
theorem create_unconditional_ttl :
    ∀ (s : StoreState) (total_items : ℕ),
      DownloadProgressStore.create s total_items
          = some (initialRecord total_items, 3600) ∧
      PROGRESS_TTL = 3600 :=
  fun _ _ => ⟨rfl, rfl⟩

/-! ## C3 — monotonicity of `cancel_requested` -/

/-- C3, counterexample.  After `create; request_cancel` the flag is set,
but a further `create` for the same id — a store operation other than
`remove` — yields a record with `cancel_requested = false` again, because
`create` overwrites unconditionally with the fresh initial record. -/
theorem cancel_monotonic_counterexample :
    DownloadProgressStore.is_cancelled
        (runOps none [.create 1, .request_cancel]) = true ∧
    (StoreOp.create 1).isRemove = false ∧
    DownloadProgressStore.is_cancelled
        (runOps none [.create 1, .request_cancel, .create 1]) = false :=
  ⟨rfl, rfl, rfl⟩

/-- C3, amended.  `request_cancel` sets the flag, and once
`cancel_requested` is true every subsequent store operation on the id
*other than `remove` and `create`* preserves it (`update` merges fields
without touching it).  `create` re-initialises the record with
`cancel_requested = false`, so monotonicity holds only for operation
sequences that never re-`create` the id. -/
theorem cancel_monotonic_amended :
    (∀ (r : ProgressRecord) (t : ℕ),
        DownloadProgressStore.is_cancelled
            (applyOp (some (r, t)) .request_cancel) = true) ∧
    (∀ (r : ProgressRecord) (t : ℕ) (ops : List StoreOp),
        r.cancel_requested = true →
        (∀ op ∈ ops, op.isCreate = false ∧ op.isRemove = false) →
        ∀ r' t', runOps (some (r, t)) ops = some (r', t') →
          r'.cancel_requested = true) := by
  constructor
  · intro r t
    rfl
  · intro r t ops
    induction ops generalizing r t with
    | nil =>
      intro hr _ r' t' h
      simp only [runOps, List.foldl_nil, Option.some.injEq, Prod.mk.injEq] at h
      rw [← h.1]
      exact hr
    | cons op rest ih =>
      intro hr hops r' t' h
      have hop := hops op (List.mem_cons_self op rest)
      have hrest : ∀ o ∈ rest, o.isCreate = false ∧ o.isRemove = false :=
        fun o ho => hops o (List.mem_cons_of_mem op ho)
      cases op with
      | create n => simp [StoreOp.isCreate] at hop
      | remove => simp [StoreOp.isRemove] at hop
      | update u =>
        have hstep : runOps (some (r, t)) (StoreOp.update u :: rest)
            = runOps (some (applyUpdate r u, t)) rest := rfl
        rw [hstep] at h
        exact ih (applyUpdate r u) t hr hrest r' t' h
      | request_cancel =>
        have hstep : runOps (some (r, t)) (StoreOp.request_cancel :: rest)
            = runOps (some ({ r with cancel_requested := true }, t)) rest := rfl
        rw [hstep] at h
        exact ih _ t rfl hrest r' t' h

/-- C3, witness for the amended theorem: a concrete `update` followed by
`request_cancel`, starting from a cancelled record, leaves the flag
set. -/
theorem cancel_monotonic_amended_witness :
    (DownloadProgressStore.get
        (runOps (some ({ initialRecord 1 with cancel_requested := true }, 3600))
          [StoreOp.update {}, StoreOp.request_cancel])).cancel_requested = true := by
  exact cancel_monotonic_amended.2
    ({ initialRecord 1 with cancel_requested := true }) 3600
    [StoreOp.update {}, StoreOp.request_cancel] rfl (by decide) _ _ rfl

/-! ## C4 — quota caps: ties -/

/-- C4, counterexample.  The claim says a value *equal* to the cap is
denied for each of the five limits.  For the single-item duration limit
the code compares with strict `>`: a 3600-second item, exactly the
default 60-minute `MAX_CONTENT_DURATION` cap, is allowed (fresh
client). -/
theorem check_limits_cap_tie_counterexample :
    (3600 : ℚ) / 60 = (({} : LimitsConfig).MAX_CONTENT_DURATION : ℚ) ∧
    check_limits {} [] [] 3600 = .allowed := by
  constructor
  · norm_num [LimitsConfig.MAX_CONTENT_DURATION]
  · simp only [check_limits]
    norm_num [LimitsConfig.MAX_CONTENT_DURATION, LimitsConfig.MAX_DOWNLOADS_PER_HOUR,
      LimitsConfig.MAX_DOWNLOADS_PER_DAY, LimitsConfig.MAX_DURATION_PER_HOUR,
      LimitsConfig.MAX_DURATION_PER_DAY]

/-- C4, amended.  `check_limits` evaluates the five limits in the claimed
order and returns the reason of the first violated one, but a value equal
to the cap only counts as a violation for the two *count* limits (`>=` in
the code); the three *duration* limits use strict `>`, so equality with
the cap is allowed. -/
theorem check_limits_characterization :
    ∀ (cfg : LimitsConfig) (hourly daily : List ℚ) (d : ℚ),
      (check_limits cfg hourly daily d = .denied "content_duration_exceeded" ↔
        (cfg.MAX_CONTENT_DURATION : ℚ) < d / 60) ∧
      (check_limits cfg hourly daily d = .denied "hourly_downloads_exceeded" ↔
        ¬((cfg.MAX_CONTENT_DURATION : ℚ) < d / 60) ∧
        cfg.MAX_DOWNLOADS_PER_HOUR ≤ hourly.length) ∧
      (check_limits cfg hourly daily d = .denied "daily_downloads_exceeded" ↔
        ¬((cfg.MAX_CONTENT_DURATION : ℚ) < d / 60) ∧
        ¬(cfg.MAX_DOWNLOADS_PER_HOUR ≤ hourly.length) ∧
        cfg.MAX_DOWNLOADS_PER_DAY ≤ daily.length) ∧
      (check_limits cfg hourly daily d = .denied "hourly_duration_exceeded" ↔
        ¬((cfg.MAX_CONTENT_DURATION : ℚ) < d / 60) ∧
        ¬(cfg.MAX_DOWNLOADS_PER_HOUR ≤ hourly.length) ∧
        ¬(cfg.MAX_DOWNLOADS_PER_DAY ≤ daily.length) ∧
        (cfg.MAX_DURATION_PER_HOUR : ℚ) < hourly.sum / 60 + d / 60) ∧
      (check_limits cfg hourly daily d = .denied "daily_duration_exceeded" ↔
        ¬((cfg.MAX_CONTENT_DURATION : ℚ) < d / 60) ∧
        ¬(cfg.MAX_DOWNLOADS_PER_HOUR ≤ hourly.length) ∧
        ¬(cfg.MAX_DOWNLOADS_PER_DAY ≤ daily.length) ∧
        ¬((cfg.MAX_DURATION_PER_HOUR : ℚ) < hourly.sum / 60 + d / 60) ∧
        (cfg.MAX_DURATION_PER_DAY : ℚ) < daily.sum / 60 + d / 60) ∧
      (check_limits cfg hourly daily d = .allowed ↔
        ¬((cfg.MAX_CONTENT_DURATION : ℚ) < d / 60) ∧
        ¬(cfg.MAX_DOWNLOADS_PER_HOUR ≤ hourly.length) ∧
        ¬(cfg.MAX_DOWNLOADS_PER_DAY ≤ daily.length) ∧
        ¬((cfg.MAX_DURATION_PER_HOUR : ℚ) < hourly.sum / 60 + d / 60) ∧
        ¬((cfg.MAX_DURATION_PER_DAY : ℚ) < daily.sum / 60 + d / 60)) := by
  intro cfg hourly daily d
  simp only [check_limits]
  split_ifs with h1 h2 h3 h4 h5 <;> simp_all

/-! ## C10 — `get_progress_pct` totality and bounds -/

/-- C10.  `get_progress_pct` performs no division and returns 15 when
`total_items ≤ 0`; and for `1 ≤ total_items` with
`0 ≤ completed_items ≤ total_items` it equals
`15 + ⌊(completed_items / total_items) * 70⌋`, which lies in
`[15, 85]`. -/
theorem get_progress_pct_bounds :
    ∀ (total completed : ℤ),
      (total ≤ 0 → get_progress_pct total completed = 15) ∧
      (1 ≤ total → 0 ≤ completed → completed ≤ total →
        get_progress_pct total completed
            = 15 + ⌊(completed : ℚ) / (total : ℚ) * 70⌋ ∧
        15 ≤ get_progress_pct total completed ∧
        get_progress_pct total completed ≤ 85) := by
  intro total completed
  constructor
  · intro h
    simp [get_progress_pct, h]
  · intro h1 h0 hc
    have hnot : ¬ total ≤ 0 := by omega
    have htq : (0 : ℚ) < (total : ℚ) := by exact_mod_cast (by omega : (0 : ℤ) < total)
    have hq0 : (0 : ℚ) ≤ (completed : ℚ) / (total : ℚ) * 70 := by
      have : (0 : ℚ) ≤ (completed : ℚ) / (total : ℚ) :=
        div_nonneg (by exact_mod_cast h0) htq.le
      positivity
    have htr : ratTrunc ((completed : ℚ) / (total : ℚ) * 70)
        = ⌊(completed : ℚ) / (total : ℚ) * 70⌋ := by
      simp [ratTrunc, not_lt.mpr hq0]
    have heq : get_progress_pct total completed
        = 15 + ⌊(completed : ℚ) / (total : ℚ) * 70⌋ := by
      simp [get_progress_pct, hnot, htr]
    refine ⟨heq, ?_, ?_⟩
    · rw [heq]
      have : (0 : ℤ) ≤ ⌊(completed : ℚ) / (total : ℚ) * 70⌋ := Int.floor_nonneg.mpr hq0
      omega
    · rw [heq]
      have hle : (completed : ℚ) / (total : ℚ) * 70 ≤ 70 := by
        have hdiv : (completed : ℚ) / (total : ℚ) ≤ 1 :=
          (div_le_one htq).mpr (by exact_mod_cast hc)
        nlinarith
      have : ⌊(completed : ℚ) / (total : ℚ) * 70⌋ ≤ 70 := by
        have := Int.floor_le_floor (α := ℚ) hle
        simpa using this
      omega

/-- C10, witness: one completed item out of four gives
`15 + ⌊17.5⌋ = 32`, inside `[15, 85]`. -/
theorem get_progress_pct_bounds_witness :
    get_progress_pct 4 1 = 32 ∧
    15 ≤ get_progress_pct 4 1 ∧ get_progress_pct 4 1 ≤ 85 := by
  have h := (get_progress_pct_bounds 4 1).2 (by norm_num) (by norm_num) (by norm_num)
  refine ⟨?_, h.2.1, h.2.2⟩
  rw [h.1]
  norm_num [Int.floor_eq_iff]

/-! ## C1 — the task always publishes a terminal record -/

/-- C1.  For every execution of `execute_download_task` over an existing
progress record, the record for `task_id` ends terminal —
`complete = true`, `percent = 100` — and TTL-preserved; with
`file_path`, status `"Done!"` and phase `"done"` exactly when the
returned result path is non-empty and exists on disk; otherwise with
`error` set: `"Cancelled by client disconnect"` / phase `"cancelled"`
when cancellation was requested, a generic error / phase `"error"` when
not; and when the body raises, the exception text (truncated to 200
characters) with phase `"error"`. -/
theorem execute_download_task_terminal :
    ∀ (r : ProgressRecord) (t : ℕ) (outcome : Except String (Option String))
      (existsOn : String → Bool),
      ∃ r', execute_download_task (some (r, t)) outcome existsOn = some (r', t) ∧
        r'.complete = true ∧ r'.percent = 100 ∧
        (∀ p, outcome = .ok (some p) → p ≠ "" → existsOn p = true →
          r'.file_path = some p ∧ r'.status = "Done!" ∧ r'.phase = "done") ∧
        ((outcome = .ok none ∨
            ∃ p, outcome = .ok (some p) ∧ (p = "" ∨ existsOn p = false)) →
          (r.cancel_requested = true →
            r'.error = some "Cancelled by client disconnect" ∧
            r'.phase = "cancelled") ∧
          (r.cancel_requested = false →
            r'.error = some "Could not download the file." ∧ r'.phase = "error")) ∧
        (∀ msg, outcome = .error msg →
          r'.error = some (msg.take 200) ∧ r'.status = "Error" ∧
          r'.phase = "error") := by
  intro r t outcome existsOn
  cases outcome with
  | error msg =>
    refine ⟨_, rfl, rfl, rfl, ?_, ?_, ?_⟩
    · intro p hp
      cases hp
    · rintro (h | ⟨p, hp, _⟩)
      · cases h
      · cases hp
    · intro m hm
      cases hm
      exact ⟨rfl, rfl, rfl⟩
  | ok rp =>
    cases rp with
    | none =>
      cases hc : r.cancel_requested with
      | true =>
        have hred : execute_download_task (some (r, t)) (.ok none) existsOn
            = some (applyUpdate r
                { error := some (some "Cancelled by client disconnect"),
                  complete := some true, percent := some 100,
                  status := some "Cancelled",
                  detail := some "Cancelled by client disconnect",
                  phase := some "cancelled" }, t) := by
          simp [execute_download_task, DownloadProgressStore.is_cancelled, hc,
            DownloadProgressStore.update]
        refine ⟨_, hred, rfl, rfl, ?_, ?_, ?_⟩
        · intro p hp
          cases hp
        · intro _
          exact ⟨fun _ => ⟨rfl, rfl⟩, fun hf => (nomatch hf)⟩
        · intro m hm
          cases hm
      | false =>
        have hred : execute_download_task (some (r, t)) (.ok none) existsOn
            = some (applyUpdate r
                { error := some (some "Could not download the file."),
                  complete := some true, percent := some 100,
                  status := some "Error", phase := some "error" }, t) := by
          simp [execute_download_task, DownloadProgressStore.is_cancelled, hc,
            DownloadProgressStore.update]
        refine ⟨_, hred, rfl, rfl, ?_, ?_, ?_⟩
        · intro p hp
          cases hp
        · intro _
          exact ⟨fun ht => (nomatch ht), fun _ => ⟨rfl, rfl⟩⟩
        · intro m hm
          cases hm
    | some p =>
      cases hb : ((p != "") && existsOn p) with
      | true =>
        have hb' : p ≠ "" ∧ existsOn p = true := by
          simpa [bne_iff_ne] using hb
        have hred : execute_download_task (some (r, t)) (.ok (some p)) existsOn
            = some (applyUpdate r
                { file_path := some (some p), complete := some true,
                  percent := some 100, status := some "Done!",
                  detail := some "Ready to download", phase := some "done",
                  speed := some "", eta := some "" }, t) := by
          simp [execute_download_task, hb, DownloadProgressStore.update]
        refine ⟨_, hred, rfl, rfl, ?_, ?_, ?_⟩
        · intro q hq _ _
          cases hq
          exact ⟨rfl, rfl, rfl⟩
        · rintro (h | ⟨q, hq, hqbad⟩)
          · cases h
          · cases hq
            rcases hqbad with h1 | h2
            · exact absurd h1 hb'.1
            · rw [hb'.2] at h2
              cases h2
        · intro m hm
          cases hm
      | false =>
        have hb' : p = "" ∨ existsOn p = false := by
          rcases Bool.and_eq_false_iff.mp hb with h | h
          · left
            simpa [bne_eq_false_iff_eq] using h
          · right
            exact h
        cases hc : r.cancel_requested with
        | true =>
          have hred : execute_download_task (some (r, t)) (.ok (some p)) existsOn
              = some (applyUpdate r
                  { error := some (some "Cancelled by client disconnect"),
                    complete := some true, percent := some 100,
                    status := some "Cancelled",
                    detail := some "Cancelled by client disconnect",
                    phase := some "cancelled" }, t) := by
            simp [execute_download_task, hb, DownloadProgressStore.is_cancelled, hc,
              DownloadProgressStore.update]
          refine ⟨_, hred, rfl, rfl, ?_, ?_, ?_⟩
          · intro q hq hne hex
            cases hq
            rcases hb' with h1 | h2
            · exact absurd h1 hne
            · rw [hex] at h2
              cases h2
          · intro _
            exact ⟨fun _ => ⟨rfl, rfl⟩, fun hf => (nomatch hf)⟩
          · intro m hm
            cases hm
        | false =>
          have hred : execute_download_task (some (r, t)) (.ok (some p)) existsOn
              = some (applyUpdate r
                  { error := some (some "Could not download the file."),
                    complete := some true, percent := some 100,
                    status := some "Error", phase := some "error" }, t) := by
            simp [execute_download_task, hb, DownloadProgressStore.is_cancelled, hc,
              DownloadProgressStore.update]
          refine ⟨_, hred, rfl, rfl, ?_, ?_, ?_⟩
          · intro q hq hne hex
            cases hq
            rcases hb' with h1 | h2
            · exact absurd h1 hne
            · rw [hex] at h2
              cases h2
          · intro _
            exact ⟨fun ht => (nomatch ht), fun _ => ⟨rfl, rfl⟩⟩
          · intro m hm
            cases hm

/-- C1, witness: a successful download whose artifact exists publishes
the `"done"` terminal record. -/
theorem execute_download_task_terminal_witness :
    (DownloadProgressStore.get
        (execute_download_task (some (initialRecord 1, 3600))
          (.ok (some "/app/Downloads/Output/x.mp3")) onDiskAlways)).complete
        = true ∧
    (DownloadProgressStore.get
        (execute_download_task (some (initialRecord 1, 3600))
          (.ok (some "/app/Downloads/Output/x.mp3")) onDiskAlways)).file_path
        = some "/app/Downloads/Output/x.mp3" ∧
    (DownloadProgressStore.get
        (execute_download_task (some (initialRecord 1, 3600))
          (.ok (some "/app/Downloads/Output/x.mp3")) onDiskAlways)).phase
        = "done" := by
  obtain ⟨r', hred, hcomp, _, hdone, _, _⟩ :=
    execute_download_task_terminal (initialRecord 1) 3600
      (.ok (some "/app/Downloads/Output/x.mp3")) onDiskAlways
  have h := hdone "/app/Downloads/Output/x.mp3" rfl (by decide) rfl
  rw [hred]
  exact ⟨hcomp, h.1, h.2.2⟩

/-! ## C6 — the transfer hook's percent formula -/

/-- C6.  On a byte update with positive total bytes, over a record with
`total_items ≥ 1` and no pending cancellation, the hook writes
`percent = min ⌊15 + ((completed_items + (d/t*100)/100) / total_items) * 75⌋ 90`
(never above 90) together with status `"Downloading..."` and phase
`"downloading"`, preserving the TTL. -/
theorem progress_hook_percent_formula :
    ∀ (r : ProgressRecord) (t downloaded totalBytes : ℕ) (fn sp et : String),
      r.cancel_requested = false →
      0 < totalBytes →
      1 ≤ r.total_items →
      ∃ r', progress_hook_downloading (some (r, t)) downloaded totalBytes fn sp et
          = .ok (some (r', t)) ∧
        r'.percent = min ⌊(15 : ℚ) + (((r.completed_items : ℚ)
            + ((downloaded : ℚ) / (totalBytes : ℚ) * 100) / 100)
            / (r.total_items : ℚ)) * 75⌋ 90 ∧
        r'.percent ≤ 90 ∧
        r'.status = "Downloading..." ∧
        r'.phase = "downloading" := by
  intro r t downloaded totalBytes fn sp et hc htb hn
  have hmax : max r.total_items 1 = r.total_items := Nat.max_eq_left hn
  have hred : progress_hook_downloading (some (r, t)) downloaded totalBytes fn sp et
      = .ok (some (applyUpdate r
          { percent := some (min ⌊(15 : ℚ) + (((r.completed_items : ℚ)
                + ((downloaded : ℚ) / (totalBytes : ℚ) * 100) / 100)
                / (r.total_items : ℚ)) * 75⌋ 90),
            status := some "Downloading...",
            detail := some (fn.take 60),
            speed := some sp,
            eta := some et,
            current_file := some fn,
            phase := some "downloading" }, t)) := by
    simp [progress_hook_downloading, DownloadProgressStore.is_cancelled, hc,
      DownloadProgressStore.get, htb, hmax, DownloadProgressStore.update]
  exact ⟨_, hred, rfl, min_le_right _ _, rfl, rfl⟩

/-- C6, witness: one of two items completed and the current item at
50/100 bytes gives `⌊15 + ((1 + 50/100) / 2) * 75⌋ = ⌊71.25⌋ = 71`. -/
theorem progress_hook_percent_formula_witness :
    ∃ r', progress_hook_downloading
        (some ({ initialRecord 2 with completed_items := 1 }, 3600)) 50 100
        "song" "1 MB/s" "3s" = .ok (some (r', 3600)) ∧
      r'.percent = 71 ∧ r'.percent ≤ 90 ∧ r'.status = "Downloading..." := by
  obtain ⟨r', hred, hpct, hle, hst, _⟩ :=
    progress_hook_percent_formula ({ initialRecord 2 with completed_items := 1 })
      3600 50 100 "song" "1 MB/s" "3s" rfl (by norm_num) (by norm_num [initialRecord])
  refine ⟨r', hred, ?_, hle, hst⟩
  rw [hpct]
  norm_num [initialRecord, Int.floor_eq_iff]

/-! ## C7 — the SponsorBlock retry -/

/-- C7, counterexample.  The claim says the retry strips *the
segment-removal post-processors* from the chain.  The retry filter
removes only the entries whose key is `"SponsorBlock"` (the chapter-data
fetcher); the `ModifyChapters` entry — the one carrying
`remove_sponsor_segments`, i.e. the post-processor that actually removes
segments — survives into the retried chain. -/
theorem sponsorblock_retry_counterexample :
    isSponsorblockRetryError "Postprocessing: SponsorBlock failed" = true ∧
    filtered_pp (_sponsorblock_postprocessors true ["sponsor"])
        = [{ key := "ModifyChapters", categories := ["sponsor"] }] := by
  constructor
  · decide
  · decide

/-- C7, amended.  When the first invocation raises an error containing a
recognized marker, the engine retries exactly once with the chain
filtered of the entries whose key is `"SponsorBlock"` (only those — the
`ModifyChapters` segment-removal entry remains); errors without a
recognized marker are not retried; and a failure of the retry itself
propagates as the item's failure. -/
theorem sponsorblock_retry_amended :
    ∀ (attempt : List PostProcessor → Except String Unit)
      (pps : List PostProcessor),
      (∀ u, attempt pps = .ok u →
        download_with_sponsorblock_retry attempt pps = .ok 1) ∧
      (∀ msg, attempt pps = .error msg → isSponsorblockRetryError msg = false →
        download_with_sponsorblock_retry attempt pps = .error msg) ∧
      (∀ msg, attempt pps = .error msg → isSponsorblockRetryError msg = true →
        (∀ u, attempt (filtered_pp pps) = .ok u →
          download_with_sponsorblock_retry attempt pps = .ok 2) ∧
        (∀ m2, attempt (filtered_pp pps) = .error m2 →
          download_with_sponsorblock_retry attempt pps = .error m2)) ∧
      filtered_pp pps = pps.filter (fun p => p.key != "SponsorBlock") := by
  intro attempt pps
  refine ⟨?_, ?_, ?_, rfl⟩
  · intro u h
    simp [download_with_sponsorblock_retry, h]
  · intro msg h hm
    simp [download_with_sponsorblock_retry, h, hm]
  · intro msg h hm
    constructor
    · intro u h2
      simp [download_with_sponsorblock_retry, h, hm, h2]
    · intro m2 h2
      simp [download_with_sponsorblock_retry, h, hm, h2]

/-- C7, witness: a chain holding the SponsorBlock pair plus a metadata
entry, against an attempt that fails while a `SponsorBlock` entry is
present, succeeds on the single retry (2 invocations). -/
theorem sponsorblock_retry_amended_witness :
    download_with_sponsorblock_retry attemptNoSB
        (_sponsorblock_postprocessors true ["sponsor"]
          ++ [({ key := "FFmpegMetadata" } : PostProcessor)]) = .ok 2 := by
  have h := (sponsorblock_retry_amended attemptNoSB
      (_sponsorblock_postprocessors true ["sponsor"]
        ++ [({ key := "FFmpegMetadata" } : PostProcessor)])).2.2.1
      "Postprocessing: SponsorBlock failed" rfl rfl
  exact h.1 () rfl

/-! ## C9 — empty input on the download route -/

/-- C9, counterexample.  With an empty raw input, the playlist-mode flag
set and an *empty* `selected_urls` form field, the handler does not
reject: the playlist branch is skipped (it requires a non-empty
`selected_urls_json` string), the request falls through to the
single-item path with the empty input, passes the quota check and is
accepted — a progress record is created and a job is enqueued. -/
theorem descargar_empty_input_counterexample :
    descargar {} 100 [] [] "" "true" "" (.ok []) 0 = .accepted := by
  have hall : check_limits {} [] [] 0 = .allowed := by
    simp only [check_limits]
    norm_num [LimitsConfig.MAX_CONTENT_DURATION, LimitsConfig.MAX_DOWNLOADS_PER_HOUR,
      LimitsConfig.MAX_DOWNLOADS_PER_DAY, LimitsConfig.MAX_DURATION_PER_HOUR,
      LimitsConfig.MAX_DURATION_PER_DAY]
  simp [descargar, hall, stripStr, pstrip]

/-- C9, amended.  The handler rejects the empty raw input with a 400
only when the playlist-mode flag is false, and rejects empty *parsed*
selections only when the `selected_urls` field is a non-empty string;
when the flag is true and the `selected_urls` field is empty, the
request is not rejected as invalid input — it proceeds (to acceptance or
a quota denial) as a single-item request. -/
theorem descargar_empty_input_amended :
    ∀ (cfg : LimitsConfig) (mp : ℕ) (hourly daily : List ℚ)
      (inputURL mode_field json : String)
      (parsed : Except Unit (List (Option ℚ))) (probe : ℚ),
      (stripStr inputURL = "" → mode_field ≠ "true" →
        descargar cfg mp hourly daily inputURL mode_field json parsed probe
            = .badRequest "Please enter a URL or song name.") ∧
      (mode_field = "true" → json ≠ "" → parsed = .ok [] →
        descargar cfg mp hourly daily inputURL mode_field json parsed probe
            = .badRequest "Select at least one item from the playlist.") ∧
      (mode_field = "true" → json = "" →
        descargar cfg mp hourly daily inputURL mode_field json parsed probe
              = .accepted ∨
        ∃ reason, descargar cfg mp hourly daily inputURL mode_field json parsed
              probe = .tooManyRequests reason) := by
  intro cfg mp hourly daily inputURL mode_field json parsed probe
  refine ⟨?_, ?_, ?_⟩
  · intro hs hm
    simp [descargar, hs, hm]
  · intro hm hj hp
    simp [descargar, hm, hj, hp]
  · intro hm hj
    cases hcl : check_limits cfg hourly daily probe with
    | allowed =>
      left
      simp [descargar, hm, hj, hcl]
    | denied reason =>
      right
      exact ⟨reason, by simp [descargar, hm, hj, hcl]⟩

/-- C9, witness for the amended theorem: a whitespace-only input without
playlist mode is rejected with the 400 message. -/
theorem descargar_empty_input_amended_witness :
    descargar {} 100 [] [] "  " "false" "" (.ok []) 0
        = .badRequest "Please enter a URL or song name." :=
  (descargar_empty_input_amended {} 100 [] [] "  " "false" "" (.ok []) 0).1
    rfl (by decide)

/-! ## C5 — fuzzy threshold and best-candidate selection -/

/-- Invariants of the best-candidate fold: the running score never
decreases, ends at least as high as every eligible candidate's score,
and the final accumulator is either untouched or the pair of some
eligible candidate with its own score. -/
theorem bestFold_spec (score : Candidate → ℚ) :
    ∀ (results : List Candidate) (acc : Option Candidate × ℚ),
      acc.2 ≤ (results.foldl (bestStep score) acc).2 ∧
      (∀ c ∈ results, c.videoId ≠ none →
        score c ≤ (results.foldl (bestStep score) acc).2) ∧
      (results.foldl (bestStep score) acc = acc ∨
        ∃ b, b ∈ results ∧ b.videoId ≠ none ∧
          results.foldl (bestStep score) acc = (some b, score b)) := by
  intro results
  induction results with
  | nil =>
    intro acc
    exact ⟨le_refl _, by simp, Or.inl rfl⟩
  | cons r rest ih =>
    intro acc
    have hstep : (r :: rest).foldl (bestStep score) acc
        = rest.foldl (bestStep score) (bestStep score acc r) := rfl
    rcases hv : r.videoId with _ | v
    · have hb : bestStep score acc r = acc := by simp [bestStep, hv]
      rw [hstep, hb]
      obtain ⟨h1, h2, h3⟩ := ih acc
      refine ⟨h1, ?_, ?_⟩
      · intro c hc hcv
        rcases List.mem_cons.mp hc with rfl | hc'
        · exact absurd hv hcv
        · exact h2 c hc' hcv
      · rcases h3 with h | ⟨b, hb1, hb2, hb3⟩
        · exact Or.inl h
        · exact Or.inr ⟨b, List.mem_cons_of_mem _ hb1, hb2, hb3⟩
    · by_cases hlt : acc.2 < score r
      · have hb : bestStep score acc r = (some r, score r) := by
          simp [bestStep, hv, hlt]
        rw [hstep, hb]
        obtain ⟨h1, h2, h3⟩ := ih (some r, score r)
        refine ⟨le_trans (le_of_lt hlt) h1, ?_, ?_⟩
        · intro c hc hcv
          rcases List.mem_cons.mp hc with rfl | hc'
          · exact h1
          · exact h2 c hc' hcv
        · rcases h3 with h | ⟨b, hb1, hb2, hb3⟩
          · exact Or.inr ⟨r, List.mem_cons_self r rest, by simp [hv], h⟩
          · exact Or.inr ⟨b, List.mem_cons_of_mem _ hb1, hb2, hb3⟩
      · have hb : bestStep score acc r = acc := by simp [bestStep, hv, hlt]
        rw [hstep, hb]
        obtain ⟨h1, h2, h3⟩ := ih acc
        refine ⟨h1, ?_, ?_⟩
        · intro c hc hcv
          rcases List.mem_cons.mp hc with rfl | hc'
          · exact le_trans (not_lt.mp hlt) h1
          · exact h2 c hc' hcv
        · rcases h3 with h | ⟨b, hb1, hb2, hb3⟩
          · exact Or.inl h
          · exact Or.inr ⟨b, List.mem_cons_of_mem _ hb1, hb2, hb3⟩

/-- C5.  The search succeeds exactly when some candidate with a
`videoId` scores at least `0.5` against the combined `"title artist"`
query string (the threshold is inclusive), and the returned candidate is
one with the highest score; the returned URL is built from its
`videoId`. -/
theorem search_threshold_and_best :
    ∀ (scoreFn : String → String → ℚ) (title : String) (artist : Option String)
      (results : List Candidate),
      ((∃ out, _search_youtube_music_impl scoreFn title artist results
            = some out) ↔
        ∃ c, c ∈ results ∧ c.videoId ≠ none ∧
          (1 : ℚ) / 2 ≤ scoreFn (stripStr (title ++ " " ++ artist.getD ""))
            (candidateCombined c)) ∧
      (∀ url b, _search_youtube_music_impl scoreFn title artist results
            = some (url, b) →
        b ∈ results ∧ b.videoId ≠ none ∧
        (1 : ℚ) / 2 ≤ scoreFn (stripStr (title ++ " " ++ artist.getD ""))
          (candidateCombined b) ∧
        (∀ c ∈ results, c.videoId ≠ none →
          scoreFn (stripStr (title ++ " " ++ artist.getD ""))
              (candidateCombined c)
            ≤ scoreFn (stripStr (title ++ " " ++ artist.getD ""))
                (candidateCombined b)) ∧
        ∃ vid, b.videoId = some vid ∧
          url = "https://music.youtube.com/watch?v=" ++ vid) := by
  intro scoreFn title artist results
  cases results with
  | nil =>
    constructor
    · simp [_search_youtube_music_impl]
    · intro url b h
      simp [_search_youtube_music_impl] at h
  | cons a rest =>
    obtain ⟨h1, h2, h3⟩ :=
      bestFold_spec
        (fun r => scoreFn (stripStr (title ++ " " ++ artist.getD ""))
          (candidateCombined r)) (a :: rest) (none, 0)
    rcases h3 with hacc | ⟨b, hb1, hb2, hb3⟩
    · -- the fold never found an eligible candidate: result is `none`
      have himpl : _search_youtube_music_impl scoreFn title artist (a :: rest)
          = none := by
        simp only [_search_youtube_music_impl, bestMatchFold, List.isEmpty_cons,
          Bool.false_eq_true, if_false, hacc]
      constructor
      · rw [himpl]
        constructor
        · rintro ⟨out, hout⟩
          cases hout
        · rintro ⟨c, hc, hcv, hcs⟩
          have hle := h2 c hc hcv
          rw [hacc] at hle
          have habs : (1 : ℚ) / 2 ≤ 0 := le_trans hcs hle
          norm_num at habs
      · intro url b h
        rw [himpl] at h
        cases h
    · -- the fold found the best eligible candidate `b`
      obtain ⟨vid, hvid⟩ := Option.ne_none_iff_exists'.mp hb2
      have hscore : ∀ c ∈ a :: rest, c.videoId ≠ none →
          scoreFn (stripStr (title ++ " " ++ artist.getD ""))
              (candidateCombined c)
            ≤ scoreFn (stripStr (title ++ " " ++ artist.getD ""))
                (candidateCombined b) := by
        intro c hc hcv
        have := h2 c hc hcv
        rw [hb3] at this
        exact this
      by_cases hth : (1 : ℚ) / 2
          ≤ scoreFn (stripStr (title ++ " " ++ artist.getD ""))
              (candidateCombined b)
      · have himpl : _search_youtube_music_impl scoreFn title artist (a :: rest)
            = some ("https://music.youtube.com/watch?v=" ++ vid, b) := by
          simp only [_search_youtube_music_impl, bestMatchFold, List.isEmpty_cons,
            Bool.false_eq_true, if_false, hb3, hvid]
          rw [if_pos hth]
        constructor
        · rw [himpl]
          constructor
          · intro _
            exact ⟨b, hb1, hb2, hth⟩
          · intro _
            exact ⟨_, rfl⟩
        · intro url b' h
          rw [himpl] at h
          injection h with h
          injection h with hurl hbb
          subst hurl
          subst hbb
          exact ⟨hb1, hb2, hth, hscore, vid, hvid, rfl⟩
      · have himpl : _search_youtube_music_impl scoreFn title artist (a :: rest)
            = none := by
          simp only [_search_youtube_music_impl, bestMatchFold, List.isEmpty_cons,
            Bool.false_eq_true, if_false, hb3, hvid]
          rw [if_neg hth]
        constructor
        · rw [himpl]
          constructor
          · rintro ⟨out, hout⟩
            cases hout
          · rintro ⟨c, hc, hcv, hcs⟩
            exact absurd (le_trans hcs (hscore c hc hcv)) hth
        · intro url b' h
          rw [himpl] at h
          cases h

/-- C5, witness: a single candidate scoring exactly `0.5` is accepted
(inclusive threshold) and returned with its URL. -/
theorem search_threshold_and_best_witness :
    _search_youtube_music_impl scoreHalf "T" (some "A") [candA]
        = some ("https://music.youtube.com/watch?v=abc", candA) ∧
    candA ∈ [candA] ∧
    (1 : ℚ) / 2 ≤ scoreHalf (stripStr ("T" ++ " " ++ (some "A").getD ""))
        (candidateCombined candA) := by
  have himpl : _search_youtube_music_impl scoreHalf "T" (some "A") [candA]
      = some ("https://music.youtube.com/watch?v=abc", candA) := by
    simp only [_search_youtube_music_impl, bestMatchFold, List.foldl, bestStep,
      scoreHalf, candA, List.isEmpty_cons, Bool.false_eq_true, if_false]
    norm_num
    rfl
  have h := (search_threshold_and_best scoreHalf "T" (some "A") [candA]).2
    "https://music.youtube.com/watch?v=abc" candA himpl
  exact ⟨himpl, h.1, h.2.2.1⟩

/-! ## C8 — the filename sanitizer and idempotence

Helper lemmas about `pstrip`, `collapseWs` and `dropTrailingDots`. -/

/-- Stripping from the right never re-exposes a leading character that
the left strip would remove. -/
theorem dropWhile_rdropWhile {α : Type _} (p : α → Bool) (l : List α) :
    ((l.dropWhile p).rdropWhile p).dropWhile p = (l.dropWhile p).rdropWhile p := by
  cases hX : (l.dropWhile p).rdropWhile p with
  | nil => rfl
  | cons a X =>
    have hpre := List.rdropWhile_prefix p (l.dropWhile p)
    rw [hX] at hpre
    obtain ⟨t, ht⟩ := hpre
    have h0 : 0 < (l.dropWhile p).length := by
      rw [← ht]
      simp
    have hnot := List.dropWhile_get_zero_not p l h0
    have hga : (l.dropWhile p).get ⟨0, h0⟩ = a := by
      simp [← ht]
    rw [hga] at hnot
    rw [List.dropWhile_cons_of_neg hnot]

/-- A prefix is contained in the list. -/
theorem within_of_start {α : Type _} {l₁ l₂ : List α} (h : l₁ <+: l₂) :
    l₁ <:+: l₂ := by
  obtain ⟨t, rfl⟩ := h
  exact ⟨[], t, rfl⟩

/-- A suffix is contained in the list. -/
theorem within_of_end {α : Type _} {l₁ l₂ : List α} (h : l₁ <:+ l₂) :
    l₁ <:+: l₂ := by
  obtain ⟨s, rfl⟩ := h
  exact ⟨s, [], by simp⟩

/-- `Chain'` restricts to any contained contiguous segment. -/
theorem chain_within {R : Char → Char → Prop} {l₁ l : List Char}
    (h : List.Chain' R l) (hw : l₁ <:+: l) : List.Chain' R l₁ := by
  obtain ⟨s, t, rfl⟩ := hw
  exact h.left_of_append.right_of_append

/-- Python's `strip` is idempotent. -/
theorem pstrip_idem (l : List Char) : pstrip (pstrip l) = pstrip l := by
  unfold pstrip
  rw [dropWhile_rdropWhile, List.rdropWhile_idempotent]

/-- The stripped list sits inside the original. -/
theorem pstrip_within (l : List Char) : pstrip l <:+: l :=
  (within_of_start ( List.rdropWhile_prefix _ _)).trans
    (within_of_end ( List.dropWhile_suffix _))

/-- Members of the stripped list are members of the original. -/
theorem pstrip_subset (l : List Char) {c : Char} (hc : c ∈ pstrip l) : c ∈ l :=
  ((pstrip_within l).sublist).subset hc

/-- `strip` never lengthens a list. -/
theorem pstrip_length_le (l : List Char) : (pstrip l).length ≤ l.length :=
  ((pstrip_within l).sublist).length_le

/-- Members of the trailing-dot-trimmed list are members of the
original. -/
theorem dropTrailingDots_subset (l : List Char) {c : Char}
    (hc : c ∈ dropTrailingDots l) : c ∈ l :=
  ( List.rdropWhile_prefix _ _).sublist.subset hc

/-- A list not ending in a dot is unchanged by the trailing-dot trim. -/
theorem dropTrailingDots_eq_self {l : List Char} (h : l.getLast? ≠ some '.') :
    dropTrailingDots l = l := by
  unfold dropTrailingDots
  rw [List.rdropWhile_eq_self_iff]
  intro hl hcontra
  apply h
  rw [List.getLast?_eq_getLast_of_ne_nil hl]
  have : l.getLast hl = '.' := by simpa using hcontra
  rw [this]

/-- Every member of the collapsed list is an original member or the
space that replaced a whitespace run. -/
theorem mem_collapseWs : ∀ (l : List Char) (c : Char),
    c ∈ collapseWs l → c ∈ l ∨ c = ' ' := by
  intro l
  induction l with
  | nil => simp [collapseWs]
  | cons a rest ih =>
    cases rest with
    | nil =>
      intro c hc
      by_cases ha : isPySpace a = true
      · simp [collapseWs, ha] at hc
        exact Or.inr hc
      · simp [collapseWs, ha] at hc
        exact Or.inl (by simp [hc])
    | cons b rest2 =>
      intro c hc
      cases hab : (isPySpace a && isPySpace b) with
      | true =>
        rw [show collapseWs (a :: b :: rest2) = collapseWs (b :: rest2) from by
          simp [collapseWs, hab]] at hc
        rcases ih c hc with h | h
        · exact Or.inl (List.mem_cons_of_mem _ h)
        · exact Or.inr h
      | false =>
        rw [show collapseWs (a :: b :: rest2)
            = (if isPySpace a then ' ' else a) :: collapseWs (b :: rest2) from by
          simp [collapseWs, hab]] at hc
        rcases List.mem_cons.mp hc with h | h
        · by_cases ha : isPySpace a = true
          · simp [ha] at h
            exact Or.inr h
          · simp [ha] at h
            exact Or.inl (by simp [h])
        · rcases ih c h with h' | h'
          · exact Or.inl (List.mem_cons_of_mem _ h')
          · exact Or.inr h'

/-- In a collapsed list every whitespace character is the single
space. -/
theorem collapseWs_ws_canonical : ∀ (l : List Char) (c : Char),
    c ∈ collapseWs l → isPySpace c = true → c = ' ' := by
  intro l
  induction l with
  | nil => simp [collapseWs]
  | cons a rest ih =>
    cases rest with
    | nil =>
      intro c hc hws
      by_cases ha : isPySpace a = true
      · simpa [collapseWs, ha] using hc
      · simp [collapseWs, ha] at hc
        rw [hc] at hws
        exact absurd hws (by simp [ha])
    | cons b rest2 =>
      intro c hc hws
      cases hab : (isPySpace a && isPySpace b) with
      | true =>
        rw [show collapseWs (a :: b :: rest2) = collapseWs (b :: rest2) from by
          simp [collapseWs, hab]] at hc
        exact ih c hc hws
      | false =>
        rw [show collapseWs (a :: b :: rest2)
            = (if isPySpace a then ' ' else a) :: collapseWs (b :: rest2) from by
          simp [collapseWs, hab]] at hc
        rcases List.mem_cons.mp hc with h | h
        · by_cases ha : isPySpace a = true
          · simpa [ha] using h
          · simp [ha] at h
            rw [h] at hws
            exact absurd hws (by simp [ha])
        · exact ih c h hws

/-- A non-whitespace head passes through `collapseWs` unchanged. -/
theorem collapseWs_head_not_ws (d : Char) (rest : List Char)
    (h : isPySpace d = false) :
    collapseWs (d :: rest) = d :: collapseWs rest := by
  cases rest with
  | nil => simp [collapseWs, h]
  | cons e rest2 => simp [collapseWs, h]

/-- The collapsed list contains no two adjacent whitespace
characters. -/
theorem collapseWs_chain : ∀ (l : List Char),
    List.Chain' (fun x y => ¬(isPySpace x = true ∧ isPySpace y = true))
      (collapseWs l) := by
  intro l
  induction l with
  | nil => simp [collapseWs]
  | cons a rest ih =>
    cases rest with
    | nil =>
      by_cases ha : isPySpace a = true <;> simp [collapseWs, ha]
    | cons b rest2 =>
      cases hab : (isPySpace a && isPySpace b) with
      | true =>
        rw [show collapseWs (a :: b :: rest2) = collapseWs (b :: rest2) from by
          simp [collapseWs, hab]]
        exact ih
      | false =>
        rw [show collapseWs (a :: b :: rest2)
            = (if isPySpace a then ' ' else a) :: collapseWs (b :: rest2) from by
          simp [collapseWs, hab]]
        rw [List.chain'_cons']
        refine ⟨?_, ih⟩
        intro y hy
        by_cases ha : isPySpace a = true
        · have hb : isPySpace b = false := by
            rcases Bool.and_eq_false_iff.mp hab with h | h
            · rw [ha] at h
              cases h
            · exact h
          rw [collapseWs_head_not_ws b rest2 hb] at hy
          simp only [List.head?_cons, Option.mem_def, Option.some.injEq] at hy
          rintro ⟨_, hyws⟩
          rw [hy] at hb
          rw [hyws] at hb
          cases hb
        · rintro ⟨h1, _⟩
          simp [ha] at h1

/-- A canonical, run-free list is a fixed point of `collapseWs`. -/
theorem collapseWs_eq_self : ∀ (l : List Char),
    (∀ c ∈ l, isPySpace c = true → c = ' ') →
    List.Chain' (fun x y => ¬(isPySpace x = true ∧ isPySpace y = true)) l →
    collapseWs l = l := by
  intro l
  induction l with
  | nil => intro _ _; rfl
  | cons a rest ih =>
    cases rest with
    | nil =>
      intro hcan _
      by_cases ha : isPySpace a = true
      · have := hcan a (by simp) ha
        simp [collapseWs, ha, this]
      · simp [collapseWs, ha]
    | cons b rest2 =>
      intro hcan hch
      have hnab : ¬(isPySpace a = true ∧ isPySpace b = true) :=
        (List.chain'_cons.mp hch).1
      have hab : (isPySpace a && isPySpace b) = false := by
        cases hwa : isPySpace a <;> cases hwb : isPySpace b <;> simp_all
      rw [show collapseWs (a :: b :: rest2)
          = (if isPySpace a then ' ' else a) :: collapseWs (b :: rest2) from by
        simp [collapseWs, hab]]
      have htail : collapseWs (b :: rest2) = b :: rest2 :=
        ih (fun c hc h => hcan c (List.mem_cons_of_mem _ hc) h)
          (List.chain'_cons.mp hch).2
      rw [htail]
      by_cases ha : isPySpace a = true
      · rw [if_pos ha, (hcan a (by simp) ha)]
      · rw [if_neg ha]

/-- `collapseWs` never lengthens a list. -/
theorem collapseWs_length_le : ∀ (l : List Char),
    (collapseWs l).length ≤ l.length := by
  intro l
  induction l with
  | nil => simp [collapseWs]
  | cons a rest ih =>
    cases rest with
    | nil =>
      by_cases ha : isPySpace a = true <;> simp [collapseWs, ha]
    | cons b rest2 =>
      cases hab : (isPySpace a && isPySpace b) with
      | true =>
        rw [show collapseWs (a :: b :: rest2) = collapseWs (b :: rest2) from by
          simp [collapseWs, hab]]
        exact le_trans ih (by simp)
      | false =>
        rw [show collapseWs (a :: b :: rest2)
            = (if isPySpace a then ' ' else a) :: collapseWs (b :: rest2) from by
          simp [collapseWs, hab]]
        simpa using ih

/-- Structural invariants of the pre-fold sanitizer output: it is
`strip`-fixed, free of forbidden characters, `collapseWs`-fixed, at most
200 characters long, and made of input characters and spaces. -/
theorem sanitize_n5_spec (title : List Char) :
    pstrip (sanitize_n5 title) = sanitize_n5 title ∧
    (∀ c ∈ sanitize_n5 title, isForbiddenChar c = false) ∧
    collapseWs (sanitize_n5 title) = sanitize_n5 title ∧
    (sanitize_n5 title).length ≤ 200 ∧
    (∀ c ∈ sanitize_n5 title, c ∈ title ∨ c = ' ') := by
  simp only [sanitize_n5]
  set n2 := (pstrip title).filter (fun c => !(isForbiddenChar c)) with hn2
  set n3 := dropTrailingDots (pstrip n2) with hn3
  set n4 := pstrip (collapseWs n3) with hn4
  have h4sub : n4 <:+: collapseWs n3 := by
    rw [hn4]
    exact pstrip_within _
  have h4forb : ∀ c ∈ n4, isForbiddenChar c = false := by
    intro c hc
    have hc3 : c ∈ collapseWs n3 := h4sub.sublist.subset hc
    rcases mem_collapseWs _ _ hc3 with h | h
    · have hcn2 : c ∈ n2 := pstrip_subset _ (dropTrailingDots_subset _ h)
      rw [hn2] at hcn2
      have := (List.mem_filter.mp hcn2).2
      simpa using this
    · rw [h]
      rfl
  have h4mem : ∀ c ∈ n4, c ∈ title ∨ c = ' ' := by
    intro c hc
    have hc3 : c ∈ collapseWs n3 := h4sub.sublist.subset hc
    rcases mem_collapseWs _ _ hc3 with h | h
    · left
      have hcn2 : c ∈ n2 := pstrip_subset _ (dropTrailingDots_subset _ h)
      rw [hn2] at hcn2
      exact pstrip_subset _ (List.mem_filter.mp hcn2).1
    · right
      exact h
  have h4can : ∀ c ∈ n4, isPySpace c = true → c = ' ' :=
    fun c hc h => collapseWs_ws_canonical n3 c (h4sub.sublist.subset hc) h
  have h4chain : List.Chain'
      (fun x y => ¬(isPySpace x = true ∧ isPySpace y = true)) n4 :=
    chain_within (collapseWs_chain n3) h4sub
  have h4strip : pstrip n4 = n4 := by
    rw [hn4, pstrip_idem]
  have h4col : collapseWs n4 = n4 := collapseWs_eq_self _ h4can h4chain
  clear_value n4 n3 n2
  by_cases h200 : 200 < n4.length
  · rw [if_pos h200]
    have hsub : pstrip (n4.take 200) <:+: n4 :=
      (pstrip_within _).trans (within_of_start ( List.take_prefix _ _))
    refine ⟨pstrip_idem _, ?_, ?_, ?_, ?_⟩
    · intro c hc
      exact h4forb c (hsub.sublist.subset hc)
    · refine collapseWs_eq_self _ ?_ ?_
      · intro c hc h
        exact h4can c (hsub.sublist.subset hc) h
      · exact chain_within h4chain hsub
    · calc (pstrip (n4.take 200)).length
          ≤ (n4.take 200).length := pstrip_length_le _
        _ ≤ 200 := by simp [List.length_take]
    · intro c hc
      exact h4mem c (hsub.sublist.subset hc)
  · rw [if_neg h200]
    exact ⟨h4strip, h4forb, h4col, by omega, h4mem⟩

/-- On an ASCII input the NFKD/ASCII fold is the identity (the only
fact the idempotence theorem assumes of it, true of the real library
call), so the sanitizer output coincides with its pre-fold stage. -/
theorem sanitize_ascii_eq_n5 (nfkd_ascii : List Char → List Char)
    (hfold : ∀ l : List Char, (∀ c ∈ l, c.toNat ≤ 127) → nfkd_ascii l = l)
    (title : List Char) (htitle : ∀ c ∈ title, c.toNat ≤ 127) :
    _sanitize_filename nfkd_ascii title = sanitize_n5 title := by
  obtain ⟨h5s, _, h5c, _, h5mem⟩ := sanitize_n5_spec title
  have h5ascii : ∀ c ∈ sanitize_n5 title, c.toNat ≤ 127 := by
    intro c hc
    rcases h5mem c hc with h | h
    · exact htitle c h
    · rw [h]
      decide
  have hid : nfkd_ascii (sanitize_n5 title) = sanitize_n5 title :=
    hfold _ h5ascii
  simp only [_sanitize_filename, hid, h5c, h5s, ite_self]

/-- C8, counterexample.  The claim says the sanitizer is idempotent on
every input; two independent phenomena refute it.  On the ASCII input
`"a. .."` the first pass trims the trailing dots *before* collapsing
whitespace, so stripping the then-trailing space re-exposes a dot: the
output is `"a."`, and a second pass trims that dot to `"a"`.  And on
`"a／b"` (U+FF0F FULLWIDTH SOLIDUS, not in the forbidden class) the NFKD
compatibility decomposition of the fold step rewrites U+FF0F to the
forbidden `'/'`: the output is `"a/b"` — which does not even end in a
dot — and a second pass strips the `'/'` to `"ab"`. -/
theorem sanitize_idempotent_counterexample :
    _sanitize_filename nfkdAsciiFold "a. ..".toList = "a.".toList ∧
    _sanitize_filename nfkdAsciiFold "a.".toList = "a".toList ∧
    _sanitize_filename nfkdAsciiFold
        (_sanitize_filename nfkdAsciiFold "a. ..".toList)
        ≠ _sanitize_filename nfkdAsciiFold "a. ..".toList ∧
    _sanitize_filename nfkdAsciiFoldWide ['a', Char.ofNat 65295, 'b']
        = "a/b".toList ∧
    _sanitize_filename nfkdAsciiFoldWide "a/b".toList = "ab".toList ∧
    ("a/b".toList).getLast? ≠ some '.' := by
  refine ⟨by decide, by decide, by decide, by decide, by decide, by decide⟩

/-- C8, amended.  For every fold behaving like the real NFKD/ASCII fold
on ASCII strings (it maps them to themselves), the sanitizer is
idempotent on every ASCII input whose sanitized output does not end in
a dot.  Both restrictions are necessary: a second application can trim
a trailing dot that truncation or whitespace-stripping exposed after
the trailing-dot trim of the first pass, and on non-ASCII inputs the
NFKD compatibility decomposition can introduce forbidden, dot or
whitespace characters that only a second pass removes. -/
theorem sanitize_idempotent_amended :
    ∀ (nfkd_ascii : List Char → List Char),
      (∀ l : List Char, (∀ c ∈ l, c.toNat ≤ 127) → nfkd_ascii l = l) →
      ∀ (title : List Char), (∀ c ∈ title, c.toNat ≤ 127) →
      (_sanitize_filename nfkd_ascii title).getLast? ≠ some '.' →
      _sanitize_filename nfkd_ascii (_sanitize_filename nfkd_ascii title)
          = _sanitize_filename nfkd_ascii title := by
  intro nfkd_ascii hfold title htitle hdot
  obtain ⟨h5s, h5f, h5c, h5len, h5mem⟩ := sanitize_n5_spec title
  have heq : _sanitize_filename nfkd_ascii title = sanitize_n5 title :=
    sanitize_ascii_eq_n5 nfkd_ascii hfold title htitle
  rw [heq] at hdot ⊢
  set o := sanitize_n5 title with ho
  clear_value o
  have hoascii : ∀ c ∈ o, c.toNat ≤ 127 := by
    intro c hc
    rcases h5mem c hc with h | h
    · exact htitle c h
    · rw [h]
      decide
  rw [sanitize_ascii_eq_n5 nfkd_ascii hfold o hoascii]
  have hfilter : o.filter (fun c => !(isForbiddenChar c)) = o :=
    List.filter_eq_self.mpr (fun c hc => by simp [h5f c hc])
  have hdrop : dropTrailingDots o = o := dropTrailingDots_eq_self hdot
  simp only [sanitize_n5]
  simp only [h5s, hfilter, hdrop, h5c]
  rw [if_neg (by omega)]

/-- C8, witness for the amended theorem: an ASCII name whose sanitized
form ends in a letter round-trips unchanged (fold instance:
`nfkdAsciiFold`, which keeps ASCII lists unchanged). -/
theorem sanitize_idempotent_amended_witness :
    (_sanitize_filename nfkdAsciiFold "  Hello?? World  ".toList).getLast?
        ≠ some '.' ∧
    _sanitize_filename nfkdAsciiFold
        (_sanitize_filename nfkdAsciiFold "  Hello?? World  ".toList)
        = _sanitize_filename nfkdAsciiFold "  Hello?? World  ".toList :=
  ⟨by decide,
    sanitize_idempotent_amended nfkdAsciiFold
      (fun l h => List.filter_eq_self.mpr (fun c hc => by
        simpa using h c hc))
      "  Hello?? World  ".toList (by decide) (by decide)⟩

end Offliner
